import Mathlib

/-!
Verification of the business-day time-bucketing and aggregation engine of the
ptv-data repository (Rust sources: generateCSV.rs, generateData-15min.rs,
generateData-15min-linespecifier.rs, generateData-5min-linespecifier.rs,
generateGraph.rs, theotherone.rs, pakenham.rs).

Modelling conventions:
- Rust `f64` arithmetic on the times and bucket computations is modelled with
  exact rationals (`ℚ`).  At every input considered here the real-valued
  computation is at distance at least 1/30 from a rounding tie, far beyond any
  `f64` rounding error, so the rational model and the `f64` computation agree
  on every rounded bucket index; `f64::round` (half away from zero) agrees
  with Mathlib's `round` (half up) on the non-negative values that occur.
- Rust `i32`/`u32` counters are modelled as `ℤ`/`ℕ`; the magnitudes involved
  never approach overflow.
- `HashMap` values are modelled extensionally as functions into `Option`
  (absent key = `none`); `entry(..).or_insert(..)` becomes `Option.getD`
  followed by a pointwise update.
- chrono's `NaiveTime::parse_from_str(s, "%H:%M:%S")` and
  `NaiveDate::parse_from_str(s, "%Y-%m-%d")` (external library calls) are
  modelled by executable parsers over the character list of the string,
  faithful on the colon/dash separated forms the data uses.
-/

/-- Clock time as parsed by chrono from an `HH:MM:SS` string. -/
structure ClockTime where
  hour : ℕ
  minute : ℕ
  second : ℕ
deriving DecidableEq, Repr

/-- Split a character list on a separator character; models splitting a string
on `:` or `-` field separators as the chrono format parsers do. -/
def splitFields (sep : Char) : List Char → List (List Char)
  | [] => [[]]
  | c :: cs =>
    if c = sep then [] :: splitFields sep cs
    else
      match splitFields sep cs with
      | [] => [[c]]
      | f :: fs => (c :: f) :: fs

/-- Numeric field of at most `w` digits (chrono numeric items accept one to
`w` digits), returning its value. -/
def digitField (w : ℕ) (cs : List Char) : Option ℕ :=
  if cs ≠ [] ∧ cs.length ≤ w ∧ cs.all Char.isDigit then
    some (cs.foldl (fun n c => 10 * n + (c.toNat - 48)) 0)
  else none

/-- Models `chrono::NaiveTime::parse_from_str(s, "%H:%M:%S")` (pakenham.rs
wraps this call as `parse_time`; the aggregation variants call it inline):
three colon-separated numeric fields, hour below 24, minute below 60, second
at most 60 (chrono admits a leap second). -/
def parseTimeHMS (s : String) : Option ClockTime :=
  match splitFields ':' s.data with
  | [hf, mf, sf] =>
    match digitField 2 hf, digitField 2 mf, digitField 2 sf with
    | some h, some m, some sec =>
      if h < 24 ∧ m < 60 ∧ sec ≤ 60 then some ⟨h, m, sec⟩ else none
    | _, _, _ => none
  | _ => none

/-- Leap-year rule used by the proleptic Gregorian calendar of chrono. -/
def isLeapYear (y : ℕ) : Bool :=
  (y % 4 == 0 && y % 100 != 0) || (y % 400 == 0)

/-- Number of days of a month in the proleptic Gregorian calendar. -/
def daysInMonth (y m : ℕ) : ℕ :=
  if m = 2 then (if isLeapYear y then 29 else 28)
  else if m = 4 ∨ m = 6 ∨ m = 9 ∨ m = 11 then 30
  else 31

/-- Models `chrono::NaiveDate::parse_from_str(s, "%Y-%m-%d")`: three
dash-separated numeric fields forming a valid calendar date. -/
def parseDateYMD (s : String) : Option (ℕ × ℕ × ℕ) :=
  match splitFields '-' s.data with
  | [yf, mf, df] =>
    match digitField 4 yf, digitField 2 mf, digitField 2 df with
    | some y, some m, some d =>
      if 1 ≤ m ∧ m ≤ 12 ∧ 1 ≤ d ∧ d ≤ daysInMonth y m then some (y, m, d)
      else none
    | _, _, _ => none
  | _ => none

/-- Models Rust `str::to_lowercase` on the ASCII line names of the data
(`Char.toLower` lowers exactly the ASCII uppercase letters). -/
def lowercase (s : String) : String :=
  ⟨s.data.map Char.toLower⟩

/-- Decimal clock time of the source variants
(generateData-15min.rs lines 84-92 and the identical code of the other
fractional variants): hours before 3 AM are pushed to the next day by adding
24, then the minutes are added as a fraction of an hour. -/
def decimal_time (hour minute : ℕ) : ℚ :=
  if hour < 3 then ((hour : ℚ) + 24) + (minute : ℚ) / 60
  else (hour : ℚ) + (minute : ℚ) / 60

/-- Business offset of a clock time: hours elapsed since 03:00 of the business
day.  In the source this is the value `decimal_time - 3.0` appearing in every
bucket-index expression (e.g. generateData-15min.rs line 96), and its integer
truncation is `business_hour` of generateCSV.rs line 85. -/
def businessOffset (hour minute : ℕ) : ℚ :=
  decimal_time hour minute - 3

/-- Integer business hour of the hourly variants (generateCSV.rs line 85,
theotherone.rs line 94, generateGraph.rs line 89). -/
def business_hour (hour : ℕ) : ℕ :=
  if hour < 3 then hour + 21 else hour - 3

/-- Unclamped 15-minute bucket index of generateData-15min.rs line 96:
`((decimal_time - 3.0) * 4.0).round() as usize`. -/
def time_block_15min (hour minute : ℕ) : ℕ :=
  (round ((decimal_time hour minute - 3) * 4)).toNat

/-- Clamped 15-minute bucket index of generateData-15min-linespecifier.rs
lines 95-97: the same rounding followed by `.min(95)`. -/
def time_block_15min_ls (hour minute : ℕ) : ℕ :=
  min (time_block_15min hour minute) 95

/-- The claim C1 states that the bucket index is clamped into the valid range
in both 15-minute variants.  generateData-15min.rs has no clamp: at departure
time 02:59:00 (business offset 23 + 59/60) the rounded index is 96, which is
then used to index the 96-element histogram vector (line 97), an out-of-bounds
access; the linespecifier variant folds the same input into bucket 95 exactly
as the claim describes. -/
theorem c1_overflow_at_0259 :
    time_block_15min 2 59 = 96 ∧
    ¬ time_block_15min 2 59 < 96 ∧
    time_block_15min_ls 2 59 = 95 := by
  have h : time_block_15min 2 59 = 96 := by
    have : round ((decimal_time 2 59 - 3) * 4) = 96 := by
      norm_num [decimal_time, round_eq]
    simp [time_block_15min, this]
  refine ⟨h, by simp [h], by simp [time_block_15min_ls, h]⟩

/-- Claim C2: for every valid clock time the business offset equals
`(hour + 21) + minute/60` before 3 AM and `(hour - 3) + minute/60` from 3 AM
on, and it always lies in the interval `[0, 24)`. -/
theorem c2_normalizer (h m : ℕ) (hh : h < 24) (hm : m < 60) :
    businessOffset h m
      = (if h < 3 then (h : ℚ) + 21 else (h : ℚ) - 3) + (m : ℚ) / 60 ∧
    0 ≤ businessOffset h m ∧ businessOffset h m < 24 := by
  have hm' : (m : ℚ) / 60 < 1 := by
    rw [div_lt_one (by norm_num)]
    exact_mod_cast lt_of_lt_of_le hm (by norm_num)
  have hm0 : (0 : ℚ) ≤ (m : ℚ) / 60 := by positivity
  unfold businessOffset decimal_time
  by_cases h3 : h < 3
  · have hq : (h : ℚ) ≥ 0 := by positivity
    have hq2 : (h : ℚ) ≤ 2 := by exact_mod_cast Nat.lt_succ_iff.mp h3
    refine ⟨by simp [h3]; ring, ?_, ?_⟩ <;> simp only [if_pos h3] <;> linarith
  · have hq3 : (3 : ℚ) ≤ (h : ℚ) := by
      exact_mod_cast Nat.le_of_not_lt h3
    have hq24 : (h : ℚ) ≤ 23 := by exact_mod_cast Nat.lt_succ_iff.mp hh
    refine ⟨by simp [h3]; ring, ?_, ?_⟩ <;> simp only [if_neg h3] <;> linarith

/-- Concrete instance of `c2_normalizer` at clock time 23:59. -/
theorem c2_normalizer_witness :
    businessOffset 23 59 = ((23 : ℚ) - 3) + (59 : ℚ) / 60 ∧
    0 ≤ businessOffset 23 59 ∧ businessOffset 23 59 < 24 := by
  have h := c2_normalizer 23 59 (by decide) (by decide)
  simpa using h

/-- Event row of the input table; the fields the aggregation core reads
(the remaining CSV columns are carried along unchanged by every variant and
never influence the histograms). -/
structure Record where
  Business_Date : String
  Line_Name : String
  Departure_Time_Scheduled : String
  Passenger_Boardings : ℤ
  Passenger_Alightings : ℤ
deriving DecidableEq, Repr

/-- Passenger movements of an event: boardings plus alightings. -/
def movement (r : Record) : ℤ :=
  r.Passenger_Boardings + r.Passenger_Alightings

/-- Vec bucket accumulation `entry[i] += v`: read the bucket, add, write back
(indices are always in range where this is used, so `List.set` is exact). -/
def addAt (h : List ℚ) (i : ℕ) (v : ℚ) : List ℚ :=
  h.set i (h.getD i 0 + v)

/-- Nested histogram map of generateData-15min-linespecifier.rs: business
date, then line, to a histogram (modelled extensionally). -/
def M2 : Type := String → String → Option (List ℚ)

/-- Pointwise update of the nested map at one (date, line) key. -/
def update2 (m : M2) (d l : String) (h : List ℚ) : M2 :=
  fun d' l' => if d' = d ∧ l' = l then some h else m d' l'

/-- Histogram contribution of one record in
generateData-15min-linespecifier.rs lines 80-99: parse the departure time
(skip the record on failure), locate or create the 96-bucket histogram of the
record's date and lowercased line, and add the movements at the clamped
15-minute bucket index. -/
def contrib15 (m : M2) (r : Record) : M2 :=
  match parseTimeHMS r.Departure_Time_Scheduled with
  | none => m
  | some t =>
    let line := lowercase r.Line_Name
    let entry := (m r.Business_Date line).getD (List.replicate 96 0)
    let tb := time_block_15min_ls t.hour t.minute
    update2 m r.Business_Date line (addAt entry tb (movement r : ℚ))

/-- One loop iteration of generateData-15min-linespecifier.rs lines 67-103:
when a line specifier is supplied, records whose lowercased line differs are
skipped before any histogram work. -/
def step15LS (spec : Option String) (m : M2) (r : Record) : M2 :=
  match spec with
  | some s => if lowercase r.Line_Name = s then contrib15 m r else m
  | none => contrib15 m r

/-- Whole aggregation of generateData-15min-linespecifier.rs: fold the record
sequence over `step15LS` starting from the empty map; `spec` is the
already-lowercased optional command-line line specifier (main lowercases the
argument on line 43). -/
def gen15LS (spec : Option String) (es : List Record) : M2 :=
  es.foldl (step15LS spec) (fun _ _ => none)

/-- Intervals per hour of generateData-5min-linespecifier.rs line 30:
`60 / block_size` in integer division. -/
def intervals_per_hour (block_size : ℕ) : ℕ :=
  60 / block_size

/-- Histogram size of generateData-5min-linespecifier.rs line 31:
`(24 - 3) * intervals_per_hour`. -/
def total_intervals (block_size : ℕ) : ℕ :=
  (24 - 3) * intervals_per_hour block_size

/-- Clamped N-minute bucket index of generateData-5min-linespecifier.rs lines
77-78: `((decimal_time - 3.0) * intervals_per_hour).round()` then
`.min(total_intervals - 1)`. -/
def time_block (block_size hour minute : ℕ) : ℕ :=
  min ((round ((decimal_time hour minute - 3) * (intervals_per_hour block_size : ℚ))).toNat)
    (total_intervals block_size - 1)

/-- One loop iteration of generateData-5min-linespecifier.rs lines 49-84:
record the first business date seen, skip records of any other date, then on
a successful time parse add the movements into the lowercased line's
`total_intervals`-bucket histogram at the clamped index. -/
def step5 (block_size : ℕ) (st : Option String × (String → Option (List ℚ)))
    (r : Record) : Option String × (String → Option (List ℚ)) :=
  let first_date := st.1.getD r.Business_Date
  (some first_date,
    if r.Business_Date = first_date then
      match parseTimeHMS r.Departure_Time_Scheduled with
      | none => st.2
      | some t =>
        let line := lowercase r.Line_Name
        let entry := (st.2 line).getD (List.replicate (total_intervals block_size) 0)
        let tb := time_block block_size t.hour t.minute
        fun l' => if l' = line then some (addAt entry tb (movement r : ℚ)) else st.2 l'
    else st.2)

/-- Whole aggregation of generateData-5min-linespecifier.rs: the fold of the
record sequence, carrying the selected first date and the per-line histogram
map. -/
def gen5 (block_size : ℕ) (es : List Record) :
    Option String × (String → Option (List ℚ)) :=
  es.foldl (step5 block_size) (none, fun _ => none)

/-- Mutable aggregation state of generateCSV.rs (and, with the extra date
check, theotherone.rs / generateGraph.rs): whole-of-file per-line totals, the
selected first business date, and the per-line hourly time series. -/
structure AggState where
  boardings_per_line : String → ℤ
  alightings_per_line : String → ℤ
  services_count : String → ℤ
  selected_business_date : Option String
  time_series : String → Option (List ℤ)

/-- Initial aggregation state: empty maps, no selected date. -/
def initAgg : AggState :=
  ⟨fun _ => 0, fun _ => 0, fun _ => 0, none, fun _ => none⟩

/-- HashMap `*map.entry(k).or_insert(0) += v` on an integer-valued map. -/
def bump (f : String → ℤ) (k : String) (v : ℤ) : String → ℤ :=
  fun k' => if k' = k then f k + v else f k'

/-- One loop iteration of generateCSV.rs lines 66-93: always bump the per-line
totals, pin the selected business date to the first record's date, and for
records of the selected date with a parseable departure time add the
movements into the line's 24-bucket hourly histogram at `business_hour`. -/
def stepCSV (st : AggState) (r : Record) : AggState :=
  let line := r.Line_Name
  let sel := st.selected_business_date.getD r.Business_Date
  let ts :=
    if r.Business_Date = sel then
      match parseTimeHMS r.Departure_Time_Scheduled with
      | none => st.time_series
      | some t =>
        let bh := business_hour t.hour
        let entry := (st.time_series line).getD (List.replicate 24 0)
        fun l' =>
          if l' = line then some (entry.set bh (entry.getD bh 0 + movement r))
          else st.time_series l'
    else st.time_series
  ⟨bump st.boardings_per_line line r.Passenger_Boardings,
   bump st.alightings_per_line line r.Passenger_Alightings,
   bump st.services_count line 1,
   some sel, ts⟩

/-- Whole aggregation of generateCSV.rs. -/
def genCSV (es : List Record) : AggState :=
  es.foldl stepCSV initAgg

/-- One loop iteration of theotherone.rs lines 70-102 (generateGraph.rs lines
66-96 is identical): as `stepCSV`, except that the time-series contribution
additionally requires the record's business date string to parse as a
`%Y-%m-%d` date. -/
def stepT (st : AggState) (r : Record) : AggState :=
  let line := r.Line_Name
  let sel := st.selected_business_date.getD r.Business_Date
  let ts :=
    if r.Business_Date = sel then
      if (parseDateYMD r.Business_Date).isSome then
        match parseTimeHMS r.Departure_Time_Scheduled with
        | none => st.time_series
        | some t =>
          let bh := business_hour t.hour
          let entry := (st.time_series line).getD (List.replicate 24 0)
          fun l' =>
            if l' = line then some (entry.set bh (entry.getD bh 0 + movement r))
            else st.time_series l'
      else st.time_series
    else st.time_series
  ⟨bump st.boardings_per_line line r.Passenger_Boardings,
   bump st.alightings_per_line line r.Passenger_Alightings,
   bump st.services_count line 1,
   some sel, ts⟩

/-- Whole aggregation of theotherone.rs / generateGraph.rs. -/
def genT (es : List Record) : AggState :=
  es.foldl stepT initAgg

/-- Train service row of pakenham.rs (fields of the TrainService struct). -/
structure TrainService where
  train_number : ℕ
  station_name : String
  arrival_time : ClockTime
  departure_time : ClockTime
  boardings : ℕ
  alightings : ℕ
  arrival_load : ℕ
  departure_load : ℕ
deriving DecidableEq, Repr

/-- chrono `NaiveTime::num_seconds_from_midnight`. -/
def num_seconds_from_midnight (t : ClockTime) : ℕ :=
  t.hour * 3600 + t.minute * 60 + t.second

/-- Sample points one service pushes in pakenham.rs lines 66-82: the anchor
`(arrival_minutes, departure_load)` followed by 99 interpolated points
`departure_load + rate_of_change * (t - arrival_minutes)` at
`t = arrival_minutes + (departure_minutes - arrival_minutes) * i / 100` for
`i = 1 .. 99`.  The division defining `rate_of_change` is unguarded in the
source; on a zero-duration service Rust `f64` yields an infinite or NaN rate
(the rational model yields 0 there), but the number and the times of the
emitted points do not depend on that value. -/
def flowPoints (s : TrainService) : List (ℚ × ℚ) :=
  let arrival_minutes : ℚ := (num_seconds_from_midnight s.arrival_time : ℚ) / 60
  let departure_minutes : ℚ := (num_seconds_from_midnight s.departure_time : ℚ) / 60
  let rate_of_change : ℚ :=
    ((s.boardings : ℚ) - (s.alightings : ℚ)) / (departure_minutes - arrival_minutes)
  (arrival_minutes, (s.departure_load : ℚ)) ::
    (List.range 99).map (fun (k : ℕ) =>
      let i : ℚ := (k : ℚ) + 1
      let t := arrival_minutes + (departure_minutes - arrival_minutes) * i / 100
      (t, (s.departure_load : ℚ) + rate_of_change * (t - arrival_minutes)))

/-- calculate_passenger_flow of pakenham.rs lines 63-86: concatenate the
sample points of every service in order. -/
def calculate_passenger_flow (services : List TrainService) : List (ℚ × ℚ) :=
  services.foldl (fun acc s => acc ++ flowPoints s) []

/-- The service of the Flow Estimator scenario of the spec: arrival 08:00:00,
departure 08:10:00, 10 boardings, 0 alightings, departure load 50. -/
def svcScenario : TrainService :=
  ⟨1, "Flinders Street", ⟨8, 0, 0⟩, ⟨8, 10, 0⟩, 10, 0, 40, 50⟩

/-- Helper: the flow of the single scenario service is its point list. -/
theorem flow_scenario_eq : calculate_passenger_flow [svcScenario] = flowPoints svcScenario := by
  simp [calculate_passenger_flow]

/-- Helper: the scenario flow's sample with time 485 (its 51st point) carries
load 55. -/
theorem flow_sample_at_50 :
    (calculate_passenger_flow [svcScenario])[50]? = some (485, 55) := by
  rw [flow_scenario_eq]
  show (flowPoints svcScenario)[50]? = some (485, 55)
  rw [flowPoints]
  simp only [List.getElem?_cons_succ, List.getElem?_map, List.getElem?_range]
  norm_num [num_seconds_from_midnight, svcScenario]

/-- Claim C5 as stated is false: the sample of the scenario service at minute
485 carries load 55, not approximately 45.  The code anchors the departure
load at the arrival minute and adds `rate_of_change * (elapsed minutes)`, with
rate `(10 - 0) / (490 - 480) = 1`, so five minutes after arrival the value is
`50 + 5 = 55`. -/
theorem c5_sample_is_55_not_45 :
    (calculate_passenger_flow [svcScenario])[50]? = some (485, 55) ∧
    (calculate_passenger_flow [svcScenario])[50]? ≠ some (485, 45) := by
  refine ⟨flow_sample_at_50, ?_⟩
  rw [flow_sample_at_50]
  intro hc
  have := (Prod.mk.injEq _ _ _ _).mp (Option.some.injEq _ _ |>.mp hc)
  norm_num at this

/-- Claim C5 amended: the scenario service produces exactly 100 samples; the
first is the anchor `(480, 50)` (departure load at the arrival minute), the
sample at minute 485 is `(485, 55)`, and the last sample is at minute 489.9
with load 59.9 (the loop stops one step short of the departure minute). -/
theorem c5_flow_scenario :
    (calculate_passenger_flow [svcScenario]).length = 100 ∧
    (calculate_passenger_flow [svcScenario]).head? = some (480, 50) ∧
    (calculate_passenger_flow [svcScenario])[50]? = some (485, 55) ∧
    (calculate_passenger_flow [svcScenario])[99]? = some (480 + 99/10, 50 + 99/10) := by
  refine ⟨?_, ?_, flow_sample_at_50, ?_⟩
  · rw [flow_scenario_eq, flowPoints]
    simp
  · rw [flow_scenario_eq, flowPoints]
    simp only [List.head?_cons, Option.some.injEq]
    norm_num [num_seconds_from_midnight, svcScenario]
  · rw [flow_scenario_eq, flowPoints]
    simp only [List.getElem?_cons_succ, List.getElem?_map, List.getElem?_range]
    norm_num [num_seconds_from_midnight, svcScenario]

/-- A zero-duration service: arrival and departure both 08:00:00. -/
def svcDegenerate : TrainService :=
  ⟨2, "Caulfield", ⟨8, 0, 0⟩, ⟨8, 0, 0⟩, 10, 0, 40, 50⟩

/-- Claim C6 states zero-duration services are skipped with no samples; the
code has no such guard (the division producing `rate_of_change` is executed
unconditionally), and a service with equal arrival and departure times still
emits its anchor plus 99 interpolated points, 100 samples in total. -/
theorem c6_degenerate_not_skipped :
    (calculate_passenger_flow [svcDegenerate]).length = 100 := by
  simp [calculate_passenger_flow, flowPoints]

/-- Claim C4: appending an event whose scheduled departure time fails to parse
leaves every time-series histogram unchanged — the event lands in no bucket,
no fallback bucket exists, no default time is substituted, and the fold is a
total function, so aggregation of the remaining events never fails. -/
theorem c4_parse_failure_discards (es : List Record) (e : Record)
    (h : parseTimeHMS e.Departure_Time_Scheduled = none) :
    (genCSV (es ++ [e])).time_series = (genCSV es).time_series := by
  unfold genCSV
  rw [List.foldl_append]
  simp [stepCSV, h]

/-- Well-formed event on the 2022-09-12 business date. -/
def recGood : Record := ⟨"2022-09-12", "Pakenham", "08:00:00", 5, 3⟩

/-- Event whose departure time string is not a valid clock time. -/
def recBadTime : Record := ⟨"2022-09-12", "Pakenham", "25:61:00", 7, 2⟩

/-- Witness for `c4_parse_failure_discards`: the malformed time 25:61:00 of
the spec scenario fails to parse and the event drops out of every histogram. -/
theorem c4_witness :
    parseTimeHMS "25:61:00" = none ∧
    (genCSV ([recGood] ++ [recBadTime])).time_series = (genCSV [recGood]).time_series :=
  ⟨by decide, c4_parse_failure_discards [recGood] recBadTime (by decide)⟩

/-- Claim C10: in the chart variants (theotherone.rs, generateGraph.rs) an
event on the selected date whose departure time parses but whose business-date
string does not parse as `%Y-%m-%d` contributes to no time-series histogram,
yet still bumps the per-line boardings, alightings and services totals. -/
theorem c10_unparsable_date (es : List Record) (e : Record) (t : ClockTime)
    (hsel : (genT es).selected_business_date = some e.Business_Date)
    (hd : parseDateYMD e.Business_Date = none)
    (ht : parseTimeHMS e.Departure_Time_Scheduled = some t) :
    (genT (es ++ [e])).time_series = (genT es).time_series ∧
    (genT (es ++ [e])).boardings_per_line e.Line_Name
      = (genT es).boardings_per_line e.Line_Name + e.Passenger_Boardings ∧
    (genT (es ++ [e])).alightings_per_line e.Line_Name
      = (genT es).alightings_per_line e.Line_Name + e.Passenger_Alightings ∧
    (genT (es ++ [e])).services_count e.Line_Name
      = (genT es).services_count e.Line_Name + 1 := by
  unfold genT
  rw [List.foldl_append]
  simp [stepT, hd, bump]

/-- First event carrying an unparsable business-date string. -/
def recBadDate1 : Record := ⟨"2022-13-40", "Pakenham", "07:00:00", 1, 1⟩

/-- Second event of the same unparsable business date with a valid time. -/
def recBadDate2 : Record := ⟨"2022-13-40", "Pakenham", "08:00:00", 5, 3⟩

/-- Witness for `c10_unparsable_date`: with both events dated by the
unparsable string 2022-13-40 (so the second is on the selected date), the
second event reaches no histogram but all three totals move. -/
theorem c10_witness :
    (genT ([recBadDate1] ++ [recBadDate2])).time_series = (genT [recBadDate1]).time_series ∧
    (genT ([recBadDate1] ++ [recBadDate2])).boardings_per_line "Pakenham"
      = (genT [recBadDate1]).boardings_per_line "Pakenham" + 5 ∧
    (genT ([recBadDate1] ++ [recBadDate2])).alightings_per_line "Pakenham"
      = (genT [recBadDate1]).alightings_per_line "Pakenham" + 3 ∧
    (genT ([recBadDate1] ++ [recBadDate2])).services_count "Pakenham"
      = (genT [recBadDate1]).services_count "Pakenham" + 1 :=
  c10_unparsable_date [recBadDate1] recBadDate2 ⟨8, 0, 0⟩ rfl (by decide) (by decide)

/-- Helper: once a first date is recorded, folding `step5` never changes it. -/
theorem gen5_fst (block_size : ℕ) (d : String) (es : List Record) :
    ∀ m, (es.foldl (step5 block_size) (some d, m)).1 = some d := by
  induction es with
  | nil => intro m; rfl
  | cons r rs ih => intro m; exact ih _

/-- Helper: once the first date `d` is recorded, records of any other business
date leave the fold state untouched, so the fold over a list equals the fold
over the sublist of records dated `d`. -/
theorem gen5_skip (block_size : ℕ) (d : String) (es : List Record) :
    ∀ m, es.foldl (step5 block_size) (some d, m)
      = (es.filter (fun r => r.Business_Date == d)).foldl (step5 block_size) (some d, m) := by
  induction es with
  | nil => intro m; rfl
  | cons r rs ih =>
    intro m
    by_cases hbd : r.Business_Date = d
    · rw [List.filter_cons_of_pos (by simpa using hbd), List.foldl_cons, List.foldl_cons]
      exact ih _
    · rw [List.filter_cons_of_neg (by simpa using hbd), List.foldl_cons]
      have hst : step5 block_size (some d, m) r = (some d, m) := by
        unfold step5
        simp [hbd]
      rw [hst]
      exact ih m

/-- Claim C3: in the first-seen-only variant the selected date is the business
date of the very first record in input order, and the final histograms equal
those of the run that sees only the records of that date — every record of a
different date contributes nothing to any histogram bucket. -/
theorem c3_first_seen_only (block_size : ℕ) (es : List Record) (e0 : Record)
    (h : es.head? = some e0) :
    (gen5 block_size es).1 = some e0.Business_Date ∧
    (gen5 block_size es).2
      = (gen5 block_size (es.filter (fun r => r.Business_Date == e0.Business_Date))).2 := by
  cases es with
  | nil => cases h
  | cons r rs =>
    have he : r = e0 := by simpa using h
    subst he
    unfold gen5
    rw [List.filter_cons_of_pos (by simp)]
    constructor
    · rw [List.foldl_cons]
      exact gen5_fst _ _ rs _
    · rw [List.foldl_cons, List.foldl_cons]
      exact congrArg Prod.snd (gen5_skip _ _ rs _)

/-- Event on a later business date, used to witness first-seen-only mode. -/
def recLaterDate : Record := ⟨"2022-09-13", "Pakenham", "04:00:00", 1, 1⟩

/-- Witness for `c3_first_seen_only`: with a first record dated 2022-09-12 and
a second dated 2022-09-13, the selected date is 2022-09-12 and the histograms
equal those computed from the 2022-09-12 records alone. -/
theorem c3_witness :
    (gen5 5 [recGood, recLaterDate]).1 = some "2022-09-12" ∧
    (gen5 5 [recGood, recLaterDate]).2
      = (gen5 5 ([recGood, recLaterDate].filter
          (fun r => r.Business_Date == "2022-09-12"))).2 :=
  c3_first_seen_only 5 [recGood, recLaterDate] recGood rfl

/-- Helper: the clamped N-minute bucket index stays below the histogram size
whenever the histogram is non-empty. -/
theorem time_block_lt (block_size : ℕ) (hN : 0 < intervals_per_hour block_size)
    (h m : ℕ) : time_block block_size h m < total_intervals block_size := by
  have hT : 0 < total_intervals block_size := by
    unfold total_intervals
    positivity
  exact lt_of_le_of_lt (min_le_right _ _) (Nat.sub_lt hT one_pos)

/-- Helper: folding `step5` preserves the histogram length invariant — every
histogram in the map (and the default replicate for absent lines) has exactly
`total_intervals` buckets. -/
theorem gen5_hist_length (block_size : ℕ) (es : List Record) :
    ∀ st, (∀ l, ((st.2 l).getD (List.replicate (total_intervals block_size) 0)).length
            = total_intervals block_size) →
      ∀ l, (((es.foldl (step5 block_size) st).2 l).getD
              (List.replicate (total_intervals block_size) 0)).length
            = total_intervals block_size := by
  induction es with
  | nil => intro st h l; exact h l
  | cons r rs ih =>
    intro st h l
    rw [List.foldl_cons]
    refine ih _ ?_ l
    intro l'
    show (((step5 block_size st r).2 l').getD _).length = _
    unfold step5
    dsimp only
    split
    · cases hp : parseTimeHMS r.Departure_Time_Scheduled with
      | none =>
        simp only [hp]
        exact h l'
      | some t =>
        simp only [hp]
        by_cases hl : l' = lowercase r.Line_Name
        · simp only [hl, ite_true, eq_self_iff_true, if_true, Option.getD_some, addAt,
            List.length_set]
          exact h _
        · simp only [if_neg hl]
          exact h l'
    · exact h l'

/-- Claim C7 amended: for block size N the histograms of the N-minute variant
have exactly `(24 - 3) * (60 / N)` buckets (integer division; 21 business
hours of buckets, not a full 24), and every clamped bucket index lies below
that size. -/
theorem c7_buckets (block_size : ℕ) (hN : 0 < intervals_per_hour block_size)
    (es : List Record) :
    (∀ l, (((gen5 block_size es).2 l).getD
        (List.replicate (total_intervals block_size) 0)).length
        = total_intervals block_size) ∧
    (∀ h m, time_block block_size h m < total_intervals block_size) :=
  ⟨gen5_hist_length block_size es _ (fun _ => by simp), fun h m => time_block_lt _ hN h m⟩

/-- Witness for `c7_buckets` at block size 5 on a one-record input. -/
theorem c7_witness :
    0 < intervals_per_hour 5 ∧
    (((gen5 5 [recGood]).2 "pakenham").getD
        (List.replicate (total_intervals 5) 0)).length = total_intervals 5 ∧
    time_block 5 2 59 < total_intervals 5 :=
  ⟨by decide, (c7_buckets 5 (by decide) [recGood]).1 "pakenham",
   (c7_buckets 5 (by decide) [recGood]).2 2 59⟩

/-- Claim C7 as stated is false: at block size N = 5 the created histograms
have `total_intervals 5 = (24 - 3) * (60 / 5) = 252` buckets, not
`24 * 60 / 5 = 288` — the arrays cover the 21 business hours 03:00-24:00
only, with everything later clamped into the last bucket. -/
theorem c7_counterexample :
    total_intervals 5 = 252 ∧ ¬ total_intervals 5 = 24 * 60 / 5 := by
  constructor <;> decide

/-- Helper: reading a bucket just written returns the written value. -/
theorem getD_set_self (l : List ℚ) (i : ℕ) (x : ℚ) (hi : i < l.length) :
    (l.set i x).getD i 0 = x := by
  rw [List.getD_eq_getElem?_getD, List.getElem?_set_self (by simpa using hi)]
  rfl

/-- Helper: writing one bucket leaves reads of any other bucket unchanged. -/
theorem getD_set_ne (l : List ℚ) {i j : ℕ} (x : ℚ) (h : i ≠ j) :
    (l.set i x).getD j 0 = l.getD j 0 := by
  rw [List.getD_eq_getElem?_getD, List.getElem?_set_ne h, ← List.getD_eq_getElem?_getD]

/-- Helper: bucket accumulations at two indices of the same histogram can be
performed in either order. -/
theorem addAt_comm (l : List ℚ) (i j : ℕ) (a b : ℚ) :
    addAt (addAt l i a) j b = addAt (addAt l j b) i a := by
  by_cases hij : i = j
  · subst hij
    by_cases hi : i < l.length
    · unfold addAt
      rw [getD_set_self l i _ hi, getD_set_self l i _ hi, List.set_set, List.set_set,
        add_right_comm]
    · have h1 : l.length ≤ i := le_of_not_lt hi
      simp [addAt, List.set_eq_of_length_le h1]
  · unfold addAt
    rw [getD_set_ne l _ hij, getD_set_ne l _ (Ne.symm hij)]
    exact List.set_comm _ _ _ hij

/-- Helper: rewriting the same (date, line) key twice keeps only the second
histogram. -/
theorem update2_same (m : M2) (d l : String) (h1 h2 : List ℚ) :
    update2 (update2 m d l h1) d l h2 = update2 m d l h2 := by
  funext d' l'
  unfold update2
  by_cases hk : d' = d ∧ l' = l
  · rw [if_pos hk, if_pos hk]
  · rw [if_neg hk, if_neg hk, if_neg hk]

/-- Helper: reading any other key after an update sees the original map. -/
theorem update2_read_ne (m : M2) {d l d' l' : String} (hk : ¬(d' = d ∧ l' = l))
    (h : List ℚ) : update2 m d l h d' l' = m d' l' := by
  unfold update2
  rw [if_neg hk]

/-- Helper: updates at two distinct (date, line) keys commute. -/
theorem update2_comm (m : M2) {d1 l1 d2 l2 : String}
    (hk : ¬(d1 = d2 ∧ l1 = l2)) (h1 h2 : List ℚ) :
    update2 (update2 m d1 l1 h1) d2 l2 h2 = update2 (update2 m d2 l2 h2) d1 l1 h1 := by
  funext d' l'
  unfold update2
  by_cases hk1 : d' = d1 ∧ l' = l1
  · have hk2 : ¬(d' = d2 ∧ l' = l2) := by
      rintro ⟨h3, h4⟩
      exact hk ⟨hk1.1.symm.trans h3, hk1.2.symm.trans h4⟩
    simp only [if_pos hk1, if_neg hk2]
  · by_cases hk2 : d' = d2 ∧ l' = l2
    · simp only [if_pos hk2, if_neg hk1]
    · simp only [if_neg hk1, if_neg hk2]

/-- Helper: reading the key just updated returns the new histogram. -/
theorem update2_read_self (m : M2) (d l : String) (h : List ℚ) :
    update2 m d l h d l = some h := by
  unfold update2
  rw [if_pos ⟨rfl, rfl⟩]

/-- Helper: the histogram contribution of two records can be folded in either
order — per-bucket accumulation is a commutative, associative sum. -/
theorem contrib15_comm (m : M2) (r1 r2 : Record) :
    contrib15 (contrib15 m r1) r2 = contrib15 (contrib15 m r2) r1 := by
  cases h1 : parseTimeHMS r1.Departure_Time_Scheduled with
  | none => simp [contrib15, h1]
  | some t1 =>
    cases h2 : parseTimeHMS r2.Departure_Time_Scheduled with
    | none => simp [contrib15, h1, h2]
    | some t2 =>
      simp only [contrib15, h1, h2]
      by_cases hk : r1.Business_Date = r2.Business_Date ∧
          lowercase r1.Line_Name = lowercase r2.Line_Name
      · obtain ⟨hd, hl⟩ := hk
        rw [hd, hl, update2_read_self, update2_read_self, Option.getD_some,
          Option.getD_some, update2_same, update2_same, addAt_comm]
      · have hk' : ¬(r2.Business_Date = r1.Business_Date ∧
            lowercase r2.Line_Name = lowercase r1.Line_Name) := by
          rintro ⟨x, y⟩
          exact hk ⟨x.symm, y.symm⟩
        rw [update2_read_ne m hk', update2_read_ne m hk]
        exact update2_comm m hk _ _

/-- Helper: one fold step of the all-dates line-filtered variant commutes with
another, whatever the optional line specifier. -/
theorem step15LS_comm (spec : Option String) (m : M2) (r1 r2 : Record) :
    step15LS spec (step15LS spec m r1) r2 = step15LS spec (step15LS spec m r2) r1 := by
  cases spec with
  | none => exact contrib15_comm m r1 r2
  | some s =>
    by_cases e1 : lowercase r1.Line_Name = s
    · by_cases e2 : lowercase r2.Line_Name = s
      · simp only [step15LS, if_pos e1, if_pos e2]
        exact contrib15_comm m r1 r2
      · simp only [step15LS, if_pos e1, if_neg e2]
    · by_cases e2 : lowercase r2.Line_Name = s
      · simp only [step15LS, if_pos e2, if_neg e1]
      · simp only [step15LS, if_neg e1, if_neg e2]

/-- Claim C9: in all-dates mode (the linespecifier variant keys histograms by
date and line and selects no date) aggregating any permutation of the same
event sequence produces the identical histogram map — accumulation is a
commutative, associative per-bucket sum, so the result is independent of
processing order. -/
theorem c9_permutation (spec : Option String) (es1 es2 : List Record)
    (p : es1.Perm es2) : gen15LS spec es1 = gen15LS spec es2 :=
  p.foldl_eq' (fun x _ y _ z => step15LS_comm spec z x y) _

/-- Event on another line, same date, used by the C8/C9 witnesses. -/
def recOtherLine : Record := ⟨"2022-09-12", "Frankston", "09:30:00", 2, 4⟩

/-- Witness for `c9_permutation`: swapping two concrete events yields the
same map. -/
theorem c9_witness :
    gen15LS none [recGood, recOtherLine] = gen15LS none [recOtherLine, recGood] :=
  c9_permutation none _ _ (List.Perm.swap recOtherLine recGood [])

/-- Helper: a key holding a histogram after a contribution either already held
one or is the contributing record's own (date, lowercased line) key. -/
theorem contrib15_isSome (m : M2) (r : Record) (d l : String)
    (h : (contrib15 m r d l).isSome) :
    (m d l).isSome ∨ l = lowercase r.Line_Name := by
  unfold contrib15 at h
  cases hp : parseTimeHMS r.Departure_Time_Scheduled with
  | none =>
    simp only [hp] at h
    exact Or.inl h
  | some t =>
    simp only [hp, update2] at h
    by_cases hk : d = r.Business_Date ∧ l = lowercase r.Line_Name
    · exact Or.inr hk.2
    · rw [if_neg hk] at h
      exact Or.inl h

/-- Helper: with a line specifier, every line key ever written to is the
specifier itself. -/
theorem gen15LS_keys (s : String) (es : List Record) :
    ∀ m, (∀ d l, (m d l).isSome → l = s) →
      ∀ d l, ((es.foldl (step15LS (some s)) m) d l).isSome → l = s := by
  induction es with
  | nil => intro m h; exact h
  | cons r rs ih =>
    intro m h
    rw [List.foldl_cons]
    refine ih _ ?_
    intro d l hdl
    by_cases e1 : lowercase r.Line_Name = s
    · simp only [step15LS, if_pos e1] at hdl
      rcases contrib15_isSome m r d l hdl with hm | hl
      · exact h d l hm
      · exact hl.trans e1
    · simp only [step15LS, if_neg e1] at hdl
      exact h d l hdl

/-- Helper: with a line specifier, records of any other line leave the fold
state untouched, so the fold equals the fold over the matching sublist. -/
theorem gen15LS_filter (s : String) (es : List Record) :
    ∀ m, es.foldl (step15LS (some s)) m
      = (es.filter (fun r => lowercase r.Line_Name == s)).foldl (step15LS (some s)) m := by
  induction es with
  | nil => intro m; rfl
  | cons r rs ih =>
    intro m
    by_cases e1 : lowercase r.Line_Name = s
    · rw [List.filter_cons_of_pos (by simpa using e1), List.foldl_cons, List.foldl_cons]
      exact ih _
    · rw [List.filter_cons_of_neg (by simpa using e1), List.foldl_cons]
      have hst : step15LS (some s) m r = m := by
        simp [step15LS, e1]
      rw [hst]
      exact ih m

/-- Claim C8: with a line filter (main lowercases the argument), every present
line key of the result equals the case-folded filter name, and events whose
case-folded line differs from the filter contribute nothing — the aggregation
equals the aggregation of the matching events alone. -/
theorem c8_line_filter (arg : String) (es : List Record) :
    (∀ d l, ((gen15LS (some (lowercase arg)) es) d l).isSome → l = lowercase arg) ∧
    gen15LS (some (lowercase arg)) es
      = gen15LS (some (lowercase arg))
          (es.filter (fun r => lowercase r.Line_Name == lowercase arg)) :=
  ⟨gen15LS_keys (lowercase arg) es _ (fun d l h => by simp at h),
   gen15LS_filter (lowercase arg) es _⟩

/-- Witness for `c8_line_filter`: filtering on PAKENHAM over a two-line input,
the populated key is the case-folded name and the other line drops out. -/
theorem c8_witness :
    "pakenham" = lowercase "PAKENHAM" ∧
    gen15LS (some (lowercase "PAKENHAM")) [recGood, recOtherLine]
      = gen15LS (some (lowercase "PAKENHAM"))
          ([recGood, recOtherLine].filter
            (fun r => lowercase r.Line_Name == lowercase "PAKENHAM")) :=
  ⟨(c8_line_filter "PAKENHAM" [recGood, recOtherLine]).1 "2022-09-12" "pakenham" (by decide),
   (c8_line_filter "PAKENHAM" [recGood, recOtherLine]).2⟩
